import Mathlib

/-!
Verification development for the job-tracker scrape-cycle engine.

Strings manipulated by the scraper are modelled as lists of characters;
JavaScript regular-expression searches are embedded as structurally
recursive leftmost-match scanners over those lists.
-/

set_option maxRecDepth 4000

namespace JobTracker

/-- ASCII whitespace, as trimmed by the scraper before parsing card text. -/
def isWsChar (c : Char) : Bool :=
  c = ' ' || c = '\t' || c = '\n' || c = '\r' || c = '\x0b' || c = '\x0c'

/-- ASCII lower-casing of one character (card text is ASCII). -/
def asciiLower (c : Char) : Char :=
  if 'A' ≤ c ∧ c ≤ 'Z' then Char.ofNat (c.toNat + 32) else c

/-- Lower-case a whole string (model of toLowerCase on card text). -/
def lowerChars (s : List Char) : List Char := s.map asciiLower

/-- Trim leading and trailing whitespace (model of String.prototype.trim). -/
def trimChars (s : List Char) : List Char :=
  ((s.dropWhile isWsChar).reverse.dropWhile isWsChar).reverse

/-- Word characters for the regex word-boundary test after a unit token. -/
def isWordChar (c : Char) : Bool :=
  c.isAlpha || c.isDigit || c = '_'

/-- Substring test, model of String.prototype.includes. -/
def containsSub (pat : List Char) : List Char → Bool
  | [] => pat.isEmpty
  | c :: cs => pat.isPrefixOf (c :: cs) || containsSub pat cs

/-- Numeric value of a digit run, model of parseInt on a decimal string. -/
def natOfDigits (ds : List Char) : Nat :=
  ds.foldl (fun acc c => acc * 10 + (c.toNat - 48)) 0

/-- One alternative of a unit alternation: the literal token and whether the
regex requires a word boundary right after it. -/
structure UnitAlt where
  tok : List Char
  wb : Bool
deriving DecidableEq, Repr

/-- Does some alternative match at the front of the remaining input? -/
def altMatches (alts : List UnitAlt) (rest : List Char) : Bool :=
  alts.any fun a =>
    a.tok.isPrefixOf rest &&
      (!a.wb || match rest.drop a.tok.length with
                | [] => true
                | c :: _ => !isWordChar c)

/-- Leftmost match of a pattern of the shape digits, optional whitespace,
then a unit alternation; returns the captured digit run's value.  This is
the model of the scraper's regexes such as the minutes pattern. -/
def findUnit (alts : List UnitAlt) : List Char → Option Nat
  | [] => none
  | c :: cs =>
    if c.isDigit then
      let ds := (c :: cs).takeWhile Char.isDigit
      let rest := ((c :: cs).dropWhile Char.isDigit).dropWhile isWsChar
      if altMatches alts rest then some (natOfDigits ds)
      else findUnit alts cs
    else findUnit alts cs

def secAlts : List UnitAlt := [⟨['s','e','c','o','n','d'], false⟩, ⟨['s','e','c'], false⟩, ⟨['s'], true⟩]
def minAlts : List UnitAlt := [⟨['m','i','n','u','t','e'], false⟩, ⟨['m','i','n'], false⟩, ⟨['m'], true⟩]
def hourAlts : List UnitAlt := [⟨['h','o','u','r'], false⟩, ⟨['h','r'], false⟩, ⟨['h'], true⟩]
def dayAlts : List UnitAlt := [⟨['d','a','y'], false⟩, ⟨['d'], true⟩]
def weekAlts : List UnitAlt := [⟨['w','e','e','k'], false⟩, ⟨['w'], true⟩]
def monthAlts : List UnitAlt := [⟨['m','o','n','t','h'], false⟩, ⟨['m','o'], true⟩]

/-- Model of LinkedInScraper.parseRelativeTime: relative-time text to
minutes, or none when no supported pattern matches. -/
def parseRelativeTime (text : List Char) : Option Nat :=
  if containsSub (['j','u','s','t',' ','n','o','w']) text ||
      containsSub (['m','o','m','e','n','t']) text then some 0
  else match findUnit secAlts text with
  | some _ => some 0
  | none => match findUnit minAlts text with
    | some n => some n
    | none => match findUnit hourAlts text with
      | some n => some (n * 60)
      | none => match findUnit dayAlts text with
        | some n => some (n * 1440)
        | none => match findUnit weekAlts text with
          | some n => some (n * 10080)
          | none => match findUnit monthAlts text with
            | some n => some (n * 43200)
            | none => none

/-- Model of LinkedInScraper.parseMinutesAgo.  The ISO elapsed-time
computation depends on the wall clock, so it is abstracted as the
function argument isoParse; authenticated selects the fallback sentinel. -/
def parseMinutesAgo (authenticated : Bool) (isoParse : List Char → Option Nat)
    (text attr : List Char) : Nat :=
  let cleaned := trimChars (lowerChars text)
  match parseRelativeTime cleaned with
  | some m => m
  | none =>
    if attr ≠ [] then
      match parseRelativeTime (trimChars (lowerChars attr)) with
      | some m => m
      | none =>
        match isoParse (trimChars attr) with
        | some m => m
        | none => if authenticated then 0 else 9999
    else if authenticated then 0 else 9999

/-- Characters of a string literal. -/
def chars (s : String) : List Char := s.data

/-- Leftmost occurrence of a literal token followed by at least one digit;
returns the digit run right after the token.  Model of the scraper's
regexes over job URLs such as the jobs-view pattern. -/
def findAfterToken (tok : List Char) : List Char → Option (List Char)
  | [] => none
  | c :: cs =>
    if tok.isPrefixOf (c :: cs) then
      let ds := ((c :: cs).drop tok.length).takeWhile Char.isDigit
      if ds.isEmpty then findAfterToken tok cs else some ds
    else findAfterToken tok cs

/-- Leftmost digit run of length at least eight; model of the catch-all
eight-or-more-digits pattern. -/
def findLongRun : List Char → Option (List Char)
  | [] => none
  | c :: cs =>
    if c.isDigit then
      let ds := (c :: cs).takeWhile Char.isDigit
      if 8 ≤ ds.length then some ds else findLongRun cs
    else findLongRun cs

def jobsViewTok : List Char := chars "/jobs/view/"
def currentJobIdTok : List Char := chars "currentJobId="

/-- Model of LinkedInScraper.extractJobId: the three accepted URL shapes
tried in order. -/
def extractJobId (url : List Char) : Option (List Char) :=
  match findAfterToken jobsViewTok url with
  | some ds => some ds
  | none =>
    match findAfterToken currentJobIdTok url with
    | some ds => some ds
    | none => findLongRun url

/-- Everything before the first question mark; model of the split on the
question mark that strips tracking query parameters. -/
def stripQuery (url : List Char) : List Char := url.takeWhile (· ≠ '?')

def httpTok : List Char := chars "http"
def linkedinOrigin : List Char := chars "https://www.linkedin.com"

/-- Model of the stored-link computation in extractCardData: strip the
query, and prefix the site origin when the link is relative. -/
def cleanLink (url : List Char) : List Char :=
  if httpTok.isPrefixOf url then stripQuery url
  else linkedinOrigin ++ stripQuery url

/-- Model of the duplicated-title repair inside extractCardData: when the
text is longer than six characters and its first half equals its second
half, keep only the first half. -/
def normalizeTitle (t : List Char) : List Char :=
  if 6 < t.length then
    let half := t.length / 2
    if t.take half = t.drop half then t.take half else t
  else t

/-- First line of the raw text (model of splitting on the newline and
keeping the first entry). -/
def firstLine (s : List Char) : List Char := s.takeWhile (· ≠ '\n')

/-- The ephemeral posting extracted from one card. -/
structure ScrapedJob where
  linkedinId : List Char
  title : List Char
  company : List Char
  link : List Char
  postedDate : List Char
  minutesAgo : Nat
deriving DecidableEq, Repr

/-- Model of LinkedInScraper.extractCardData: per-card extraction with
early-return drops for a missing title, company, link or derivable id. -/
def extractCardData (authenticated : Bool) (isoParse : List Char → Option Nat)
    (rawTitle rawCompany rawLink alternateLink dateText dateAttr : List Char) :
    Option ScrapedJob :=
  let title := normalizeTitle (trimChars (firstLine rawTitle))
  let company := trimChars (firstLine rawCompany)
  let linkToUse := if rawLink ≠ [] then rawLink else alternateLink
  if title = [] || company = [] || linkToUse = [] then none
  else
    let postedDate := if authenticated then [] else
      if dateText ≠ [] then dateText else dateAttr
    let minutesAgo := if authenticated then 0 else
      parseMinutesAgo authenticated isoParse dateText dateAttr
    match extractJobId linkToUse with
    | none => none
    | some id =>
      some ⟨id, title, company, cleanLink linkToUse, postedDate, minutesAgo⟩

/-- Minimal job info fed to the batch relevance filter. -/
structure JobForFiltering where
  linkedinId : List Char
  title : List Char
  company : List Char
deriving DecidableEq, Repr

/-- Profile preferences passed into the filtering functions. -/
structure ProfilePreferences where
  excludeTitleKeywords : List (List Char)
  targetSeniority : List (List Char)
  preferredTechStack : List (List Char)

/-- Is the job title excluded by one of the lower-cased keywords? -/
def titleExcluded (lowerKeywords : List (List Char)) (j : JobForFiltering) : Bool :=
  lowerKeywords.any fun kw => containsSub kw (lowerChars j.title)

/-- Model of preFilterByKeywords: the hard keyword pre-filter run before
the AI call.  Returns the passed and rejected jobs in input order. -/
def preFilterByKeywords (jobs : List JobForFiltering)
    (excludeKeywords : List (List Char)) :
    List JobForFiltering × List JobForFiltering :=
  if excludeKeywords.isEmpty then (jobs, [])
  else
    let lowerKeywords := excludeKeywords.map lowerChars
    (jobs.filter (fun j => !titleExcluded lowerKeywords j),
     jobs.filter (fun j => titleExcluded lowerKeywords j))

/-- The dedup key: lower-cased trimmed title and company joined by a pipe. -/
def dedupKey (j : JobForFiltering) : List Char :=
  trimChars (lowerChars j.title) ++ '|' :: trimChars (lowerChars j.company)

/-- Model of the loop inside deduplicateJobs, threading the set of keys
already seen. -/
def dedupGo (seen : List (List Char)) : List JobForFiltering → List JobForFiltering
  | [] => []
  | j :: rest =>
    if dedupKey j ∈ seen then dedupGo seen rest
    else j :: dedupGo (dedupKey j :: seen) rest

/-- Model of deduplicateJobs: keep the first occurrence of each unique
title-and-company combination. -/
def deduplicateJobs (jobs : List JobForFiltering) : List JobForFiltering :=
  dedupGo [] jobs

/-- The batch actually sent to the AI call: the input jobs after the
keyword pre-filter and the title-company dedup. -/
def aiInput (jobs : List JobForFiltering) (prefs : ProfilePreferences) :
    List JobForFiltering :=
  deduplicateJobs (preFilterByKeywords jobs prefs.excludeTitleKeywords).1

/-- Model of filterRelevantJobs.  The AI chat call is abstracted as the
oracle ai: some ids is a successfully parsed relevantIds array, none is
any failure (timeout, transport error, missing text, malformed JSON).
Returns the id set as a list. -/
def filterRelevantJobs (jobs : List JobForFiltering) (prefs : ProfilePreferences)
    (ai : List JobForFiltering → Option (List (List Char))) : List (List Char) :=
  if jobs.isEmpty then []
  else if (aiInput jobs prefs).isEmpty then []
  else
    match ai (aiInput jobs prefs) with
    | some ids => ids
    | none => (aiInput jobs prefs).map (·.linkedinId)

/-- The durable singleton ScraperState row. -/
structure SState where
  lastRunAt : Nat
  lastSuccessAt : Option Nat
  errorCount : Nat
  isRunning : Bool
  pid : Option Nat
deriving DecidableEq, Repr

/-- A persisted job record as written by saveJobMinimal. -/
structure JobRecord where
  linkedinId : List Char
  title : List Char
  company : List Char
  link : List Char
  applyLink : List Char
  postedDate : List Char
deriving DecidableEq, Repr

/-- The durable state shared between the agent and the control surface:
the ScraperState row and the table of saved jobs. -/
structure Db where
  scraper : SState
  jobs : List JobRecord
deriving DecidableEq, Repr

/-- Ids of all persisted jobs; jobExistsBatch is membership in this list. -/
def storedIds (db : Db) : List (List Char) := db.jobs.map (·.linkedinId)

/-- Model of markScraperRunning. -/
def markScraperRunning (now : Nat) (db : Db) : Db :=
  { db with scraper := { db.scraper with isRunning := true, lastRunAt := now } }

/-- Model of markScraperSuccess. -/
def markScraperSuccess (now : Nat) (db : Db) : Db :=
  { db with scraper :=
    { db.scraper with isRunning := false, lastSuccessAt := some now, errorCount := 0 } }

/-- Model of markScraperError. -/
def markScraperError (db : Db) : Db :=
  { db with scraper :=
    { db.scraper with isRunning := false, errorCount := db.scraper.errorCount + 1 } }

/-- Cycle environment: configuration plus the external collaborators the
orchestrator awaits (scanner, relevance filter, apply-link resolution,
persistence failures) and the wall-clock instants it reads. -/
structure CycleEnv where
  maxConsecutiveErrors : Nat
  errorPauseMinutes : Nat
  maxMinutesAgo : Nat
  keywords : List (List Char)
  now : Nat
  endTime : Nat
  launchOk : Bool
  scan : List Char → List ScrapedJob
  relFilter : List ScrapedJob → List (List Char)
  applyLinkOf : ScrapedJob → List Char
  saveErr : List Char → Bool

/-- One iteration of the save loop: resolve the apply link, then attempt
saveJobMinimal.  A duplicate id or a database error throws inside the
loop's try and is caught, leaving the database unchanged. -/
def saveStep (env : CycleEnv) (db : Db) (job : ScrapedJob) : Db :=
  let ext := env.applyLinkOf job
  let applyLink := if ext = [] then job.link else ext
  if env.saveErr job.linkedinId then db
  else if job.linkedinId ∈ storedIds db then db
  else { db with jobs := db.jobs ++
    [⟨job.linkedinId, job.title, job.company, job.link, applyLink, job.postedDate⟩] }

/-- One keyword's pipeline inside the cycle: scan, age filter, relevance
filter, batched dedup against storage, then the save loop.  The second
component logs the keywords scanned. -/
def processKeyword (env : CycleEnv) (acc : Db × List (List Char)) (kw : List Char) :
    Db × List (List Char) :=
  let db := acc.1
  let scanned := acc.2 ++ [kw]
  let allCards := env.scan kw
  if allCards.isEmpty then (db, scanned)
  else
    let recentCards := allCards.filter fun j => j.minutesAgo ≤ env.maxMinutesAgo
    if recentCards.isEmpty then (db, scanned)
    else
      let relevantIds := env.relFilter recentCards
      let relevantCards := recentCards.filter fun j => j.linkedinId ∈ relevantIds
      if relevantCards.isEmpty then (db, scanned)
      else
        let existingIds :=
          (relevantCards.map (·.linkedinId)).filter fun i => i ∈ storedIds db
        let newCards := relevantCards.filter fun j => j.linkedinId ∉ existingIds
        (newCards.foldl (saveStep env) db, scanned)

/-- Model of runScrapeCycle: the two entry guards, markScraperRunning, the
per-keyword pipeline, and the success or failure bookkeeping.  A launch
failure is the cycle-level exception caught by the catch block.  The
second component lists the keywords that were actually scanned. -/
def runScrapeCycle (env : CycleEnv) (db : Db) : Db × List (List Char) :=
  if db.scraper.isRunning then (db, [])
  else if db.scraper.errorCount ≥ env.maxConsecutiveErrors ∧
      env.now < db.scraper.lastRunAt + env.errorPauseMinutes * 60000 then (db, [])
  else
    let db1 := markScraperRunning env.now db
    if env.launchOk then
      let r := env.keywords.foldl (processKeyword env) (db1, [])
      (markScraperSuccess env.endTime r.1, r.2)
    else (markScraperError db1, [])

/-- Model of resetScraperStateOnStartup: clear isRunning and the pid when
either is set. -/
def resetScraperStateOnStartup (db : Db) : Db :=
  if db.scraper.isRunning ∨ db.scraper.pid ≠ none then
    { db with scraper := { db.scraper with isRunning := false, pid := none } }
  else db

/-- Model of setScraperPid. -/
def setScraperPid (p : Nat) (db : Db) : Db :=
  { db with scraper := { db.scraper with pid := some p } }

/-- The part of startScheduler that is awaited before the agent's startup
continues: the stuck-state reset.  The first cycle and the interval are
fired without being awaited and never touch the pid column. -/
def schedulerStartup (db : Db) : Db := resetScraperStateOnStartup db

/-- How the agent entry point's main function ends. -/
inductive AgentResult where
  | exited (code : Nat)
  | running
deriving DecidableEq, Repr

/-- Agent environment: liveness of recorded pids, the new process's own
pid, and whether the configuration validates. -/
structure AgentEnv where
  alive : Nat → Bool
  newPid : Nat
  configValid : Bool

/-- Model of the scraper agent's main: validate configuration, refuse to
start when the recorded owner is alive, reset stuck state, record the own
pid, then start the scheduler. -/
def agentMain (env : AgentEnv) (db : Db) : Db × AgentResult :=
  if !env.configValid then (db, .exited 1)
  else
    let blocked := match db.scraper.pid with
      | some p => env.alive p
      | none => false
    if blocked then (db, .exited 1)
    else
      let d1 := resetScraperStateOnStartup db
      let d2 := setScraperPid env.newPid d1
      let d3 := schedulerStartup d2
      (d3, .running)

/-- One cycle invocation viewed as a sequence of awaited database
operations.  pc 0: about to read the state; pc 1: read done, the observed
isRunning value held in reg; pc 2: marked running, cycle body executing;
pc 3: finished (either skipped or completed). -/
structure ProcState where
  pc : Nat
  reg : Bool
  skipped : Bool
  worked : Bool
deriving DecidableEq, Repr

/-- The shared ScraperState.isRunning flag plus two cycle invocations
spawned by scheduler ticks. -/
structure Sys where
  running : Bool
  a : ProcState
  b : ProcState
deriving DecidableEq, Repr

/-- Interleaving semantics of two concurrently ticked runScrapeCycle
invocations: the getScraperState read, the early return on an observed
isRunning, the markScraperRunning write, and cycle completion are each a
separate awaited database operation, so steps of the two invocations can
interleave freely. -/
inductive Step : Sys → Sys → Prop where
  | readA (r : Bool) (a b : ProcState) (h : a.pc = 0) :
      Step ⟨r, a, b⟩ ⟨r, { a with pc := 1, reg := r }, b⟩
  | skipA (r : Bool) (a b : ProcState) (h : a.pc = 1) (hr : a.reg = true) :
      Step ⟨r, a, b⟩ ⟨r, { a with pc := 3, skipped := true }, b⟩
  | markA (r : Bool) (a b : ProcState) (h : a.pc = 1) (hr : a.reg = false) :
      Step ⟨r, a, b⟩ ⟨true, { a with pc := 2 }, b⟩
  | finishA (r : Bool) (a b : ProcState) (h : a.pc = 2) :
      Step ⟨r, a, b⟩ ⟨false, { a with pc := 3, worked := true }, b⟩
  | readB (r : Bool) (a b : ProcState) (h : b.pc = 0) :
      Step ⟨r, a, b⟩ ⟨r, a, { b with pc := 1, reg := r }⟩
  | skipB (r : Bool) (a b : ProcState) (h : b.pc = 1) (hr : b.reg = true) :
      Step ⟨r, a, b⟩ ⟨r, a, { b with pc := 3, skipped := true }⟩
  | markB (r : Bool) (a b : ProcState) (h : b.pc = 1) (hr : b.reg = false) :
      Step ⟨r, a, b⟩ ⟨true, a, { b with pc := 2 }⟩
  | finishB (r : Bool) (a b : ProcState) (h : b.pc = 2) :
      Step ⟨r, a, b⟩ ⟨false, a, { b with pc := 3, worked := true }⟩

/-- Both invocations start before their state read, isRunning false. -/
def sysInit : Sys := ⟨false, ⟨0, false, false, false⟩, ⟨0, false, false, false⟩⟩

/-- Reachability under the interleaving semantics. -/
def SysReach (s : Sys) : Prop := Relation.ReflTransGen Step sysInit s

/-- The interleaved state in which both cycle invocations are executing
their bodies at the same time. -/
def overlapState : Sys := ⟨true, ⟨2, false, false, false⟩, ⟨2, false, false, false⟩⟩

/-- Concrete environment for the end-to-end scenario: one keyword, a
scanner returning 50 cards with ages 0..49, an age cutoff of 9 minutes,
and a relevance filter keeping the four youngest ids. -/
def scenarioEnv : CycleEnv :=
  ⟨5, 30, 9, [chars "backend engineer"], 100, 200, true,
    fun _ => (List.range 50).map fun i =>
      ⟨List.replicate (i + 1) 'x', chars "t", chars "c", chars "l", chars "d", i⟩,
    fun _ => [List.replicate 1 'x', List.replicate 2 'x',
      List.replicate 3 'x', List.replicate 4 'x'],
    fun _ => [], fun _ => false⟩

/-- Concrete starting database for the end-to-end scenario: one of the
four relevant ids is already stored. -/
def scenarioDb : Db :=
  ⟨⟨0, none, 0, false, none⟩,
   [⟨List.replicate 1 'x', chars "t", chars "c", chars "l", chars "a", chars "d"⟩]⟩

/-- C6: relative-time parsing is total and never throws; the four spec
sample inputs parse to 37, 60, 2880 and 0 minutes; and an input matching
no supported pattern, with no parseable ISO datetime attribute, yields
the session-asymmetric sentinel: 0 when authenticated, 9999 otherwise. -/
theorem parse_time_examples_and_sentinel (authenticated : Bool)
    (isoParse : List Char → Option Nat) :
    parseMinutesAgo authenticated isoParse (chars "37 minutes ago") [] = 37 ∧
    parseMinutesAgo authenticated isoParse (chars "1 hour ago") [] = 60 ∧
    parseMinutesAgo authenticated isoParse (chars "2 days ago") [] = 2880 ∧
    parseMinutesAgo authenticated isoParse (chars "just now") [] = 0 ∧
    ∀ text attr, parseRelativeTime (trimChars (lowerChars text)) = none →
      (attr = [] ∨ (parseRelativeTime (trimChars (lowerChars attr)) = none ∧
        isoParse (trimChars attr) = none)) →
      parseMinutesAgo authenticated isoParse text attr =
        if authenticated then 0 else 9999 := by
  refine ⟨rfl, rfl, rfl, rfl, ?_⟩
  intro text attr h1 h2
  rcases h2 with hattr | ⟨h2a, h2b⟩
  · subst hattr
    simp [parseMinutesAgo, h1]
  · by_cases hattr : attr = []
    · subst hattr
      simp [parseMinutesAgo, h1]
    · simp [parseMinutesAgo, h1, hattr, h2a, h2b]

/-- Witness for C6 at concrete inputs: a parseable example and an
unparseable one under each session state. -/
theorem parse_time_examples_and_sentinel_witness :
    parseMinutesAgo false (fun _ => none) (chars "37 minutes ago") [] = 37 ∧
    parseMinutesAgo false (fun _ => none) (chars "posted recently") [] = 9999 ∧
    parseMinutesAgo true (fun _ => none) (chars "posted recently") [] = 0 := by
  refine ⟨(parse_time_examples_and_sentinel false (fun _ => none)).1, ?_, ?_⟩
  · have h := (parse_time_examples_and_sentinel false (fun _ => none)).2.2.2.2
      (chars "posted recently") [] (by decide) (Or.inl rfl)
    simpa using h
  · have h := (parse_time_examples_and_sentinel true (fun _ => none)).2.2.2.2
      (chars "posted recently") [] (by decide) (Or.inl rfl)
    simpa using h

/-- C7 counterexample: the duplicated-title repair does not fire on texts
of length at most six, so the title abcabc, which is S+S for S = abc, is
left unchanged instead of being normalized to abc. -/
theorem normalizeTitle_short_counterexample :
    normalizeTitle (chars "abc" ++ chars "abc") = chars "abcabc" ∧
    normalizeTitle (chars "abc" ++ chars "abc") ≠ chars "abc" := by decide

/-- C7 amended: the normalization maps S+S to S whenever the duplicated
text is longer than six characters (S longer than three); shorter
duplicated forms are left unchanged; and every title that is not of the
form S+S is unchanged. -/
theorem normalizeTitle_amended :
    (∀ S : List Char, 3 < S.length → normalizeTitle (S ++ S) = S) ∧
    (∀ S : List Char, S.length ≤ 3 → normalizeTitle (S ++ S) = S ++ S) ∧
    (∀ t : List Char, (∀ S : List Char, t ≠ S ++ S) → normalizeTitle t = t) := by
  refine ⟨?_, ?_, ?_⟩
  · intro S hS
    have h6 : 6 < (S ++ S).length := by
      simp only [List.length_append]; omega
    have hhalf : (S ++ S).length / 2 = S.length := by
      simp only [List.length_append]; omega
    simp only [normalizeTitle, if_pos h6, hhalf, List.take_left, List.drop_left]
    simp
  · intro S hS
    have h6 : ¬ 6 < (S ++ S).length := by
      simp only [List.length_append]; omega
    simp only [normalizeTitle, if_neg h6]
  · intro t h
    by_cases h6 : 6 < t.length
    · by_cases heq : t.take (t.length / 2) = t.drop (t.length / 2)
      · exfalso
        apply h (t.drop (t.length / 2))
        conv_lhs => rw [← List.take_append_drop (t.length / 2) t]
        rw [heq]
      · simp only [normalizeTitle, if_pos h6, if_neg heq]
    · simp only [normalizeTitle, if_neg h6]

/-- Witness for C7 at concrete inputs: the spec example titles and a
one-character title that cannot be of the form S+S. -/
theorem normalizeTitle_amended_witness :
    normalizeTitle (chars "Backend Engineer" ++ chars "Backend Engineer")
      = chars "Backend Engineer" ∧
    normalizeTitle (chars "ab" ++ chars "ab") = chars "ab" ++ chars "ab" ∧
    normalizeTitle (chars "Q") = chars "Q" := by
  refine ⟨normalizeTitle_amended.1 (chars "Backend Engineer") (by decide),
    normalizeTitle_amended.2.1 (chars "ab") (by decide),
    normalizeTitle_amended.2.2 (chars "Q") ?_⟩
  intro S hS
  have hl := congrArg List.length hS
  rw [show (chars "Q").length = 1 from rfl, List.length_append] at hl
  omega

lemma linkedinOrigin_eq :
    linkedinOrigin = ['h', 't', 't', 'p', 's', ':', '/', '/', 'w', 'w', 'w', '.',
      'l', 'i', 'n', 'k', 'e', 'd', 'i', 'n', '.', 'c', 'o', 'm'] := rfl

lemma jobsViewTok_eq :
    jobsViewTok = ['/', 'j', 'o', 'b', 's', '/', 'v', 'i', 'e', 'w', '/'] := rfl

lemma currentJobIdTok_eq :
    currentJobIdTok = ['c', 'u', 'r', 'r', 'e', 'n', 't', 'J', 'o', 'b', 'I', 'd', '='] := rfl

/-- The jobs-view pattern never matches inside the site origin prefix. -/
lemma findAfterToken_jobsView_origin (s : List Char) :
    findAfterToken jobsViewTok (linkedinOrigin ++ s) = findAfterToken jobsViewTok s := by
  rw [linkedinOrigin_eq]
  simp +decide [findAfterToken, jobsViewTok_eq, List.isPrefixOf]

/-- The currentJobId pattern never matches inside the site origin prefix. -/
lemma findAfterToken_currentJobId_origin (s : List Char) :
    findAfterToken currentJobIdTok (linkedinOrigin ++ s) = findAfterToken currentJobIdTok s := by
  rw [linkedinOrigin_eq]
  simp +decide [findAfterToken, currentJobIdTok_eq, List.isPrefixOf]

/-- The origin prefix contains no digits, so the long-digit-run pattern
never matches inside it. -/
lemma findLongRun_origin (s : List Char) :
    findLongRun (linkedinOrigin ++ s) = findLongRun s := by
  rw [linkedinOrigin_eq]
  simp +decide [findLongRun]

/-- Prefixing a relative link with the site origin does not change the
extracted job id. -/
lemma extractJobId_origin (s : List Char) :
    extractJobId (linkedinOrigin ++ s) = extractJobId s := by
  simp only [extractJobId, findAfterToken_jobsView_origin,
    findAfterToken_currentJobId_origin, findLongRun_origin]

/-- C8 counterexample: a card whose URL carries the job id only in the
currentJobId query parameter is extracted successfully, but the stored
query-stripped link no longer yields any site id, refuting derivability
of the siteId from the stored link. -/
theorem siteId_not_derivable_from_stored_link :
    extractCardData false (fun _ => none) (chars "Engineer") (chars "Acme")
        (chars "https://www.linkedin.com/jobs/search/?currentJobId=12345678")
        [] (chars "3m") []
      = some ⟨chars "12345678", chars "Engineer", chars "Acme",
          chars "https://www.linkedin.com/jobs/search/", chars "3m", 3⟩ ∧
    extractJobId (chars "https://www.linkedin.com/jobs/search/") = none := by decide

/-- C8 amended: the stored link is stripped of all query parameters; the
id derivable from the stored link is exactly the id derivable from the
query-stripped URL (so an id carried only by query parameters such as
currentJobId is not re-derivable from the stored link); a card whose URL
yields no id is dropped; and for an extracted card the siteId and stored
link are the stated pure functions of the card's URL. -/
theorem link_cleaning_amended :
    (∀ url : List Char, '?' ∉ cleanLink url) ∧
    (∀ url : List Char, extractJobId (cleanLink url) = extractJobId (stripQuery url)) ∧
    (∀ auth isoParse rawTitle rawCompany rawLink alternateLink dateText dateAttr,
      extractJobId (if rawLink ≠ [] then rawLink else alternateLink) = none →
      extractCardData auth isoParse rawTitle rawCompany rawLink alternateLink
        dateText dateAttr = none) ∧
    (∀ auth isoParse rawTitle rawCompany rawLink alternateLink dateText dateAttr job,
      extractCardData auth isoParse rawTitle rawCompany rawLink alternateLink
        dateText dateAttr = some job →
      extractJobId (if rawLink ≠ [] then rawLink else alternateLink)
          = some job.linkedinId ∧
      job.link = cleanLink (if rawLink ≠ [] then rawLink else alternateLink)) := by
  have hstrip : ∀ url : List Char, '?' ∉ stripQuery url := by
    intro url hmem
    have := List.mem_takeWhile_imp hmem
    simp at this
  refine ⟨?_, ?_, ?_, ?_⟩
  · intro url
    unfold cleanLink
    split
    · exact hstrip url
    · intro hmem
      rcases List.mem_append.mp hmem with h | h
      · revert h; decide
      · exact hstrip url h
  · intro url
    unfold cleanLink
    split
    · rfl
    · exact extractJobId_origin (stripQuery url)
  · intro auth isoParse rawTitle rawCompany rawLink alternateLink dateText dateAttr hid
    simp only [extractCardData]
    split
    · rw [if_pos ‹rawLink ≠ []›] at hid
      simp [hid]
    · rw [if_neg ‹¬rawLink ≠ []›] at hid
      simp [hid]
  · intro auth isoParse rawTitle rawCompany rawLink alternateLink dateText dateAttr job hjob
    simp only [extractCardData] at hjob
    split at hjob <;> rename_i hraw
    · split at hjob
      · exact absurd hjob (by simp)
      · rcases hcase : extractJobId rawLink with _ | id
        · rw [hcase] at hjob
          exact absurd hjob (by simp)
        · rw [hcase] at hjob
          have hrec := Option.some.inj hjob
          subst hrec
          constructor
          · rw [if_pos hraw, hcase]
          · rw [if_pos hraw]
    · split at hjob
      · exact absurd hjob (by simp)
      · rcases hcase : extractJobId alternateLink with _ | id
        · rw [hcase] at hjob
          exact absurd hjob (by simp)
        · rw [hcase] at hjob
          have hrec := Option.some.inj hjob
          subst hrec
          constructor
          · rw [if_neg hraw, hcase]
          · rw [if_neg hraw]

/-- Witness for C8 at concrete inputs: a jobs-view link whose id survives
query stripping, a query-only id, and a dropped id-less card. -/
theorem link_cleaning_amended_witness :
    ('?' ∉ cleanLink (chars "/jobs/view/123456/?refId=tracking")) ∧
    extractJobId (cleanLink (chars "/jobs/view/123456/?refId=tracking"))
      = extractJobId (stripQuery (chars "/jobs/view/123456/?refId=tracking")) ∧
    extractCardData false (fun _ => none) (chars "Engineer") (chars "Acme")
        (chars "/jobs/nothing-here/") [] (chars "3m") [] = none := by
  refine ⟨link_cleaning_amended.1 (chars "/jobs/view/123456/?refId=tracking"),
    link_cleaning_amended.2.1 (chars "/jobs/view/123456/?refId=tracking"),
    link_cleaning_amended.2.2.1 false (fun _ => none) (chars "Engineer") (chars "Acme")
      (chars "/jobs/nothing-here/") [] (chars "3m") [] (by decide)⟩

/-- The passed component of the keyword pre-filter is always a filter of
the input by the non-excluded predicate. -/
lemma preFilter_passed_eq (jobs : List JobForFiltering) (ks : List (List Char)) :
    (preFilterByKeywords jobs ks).1
      = jobs.filter fun j => !titleExcluded (ks.map lowerChars) j := by
  unfold preFilterByKeywords
  split
  · rename_i hks
    have : ks = [] := by simpa using hks
    subst this
    simp [titleExcluded]
  · rfl

/-- Deduplication only keeps elements of its input. -/
lemma dedupGo_subset :
    ∀ (l : List JobForFiltering) (seen : List (List Char)) (x : JobForFiltering),
      x ∈ dedupGo seen l → x ∈ l := by
  intro l
  induction l with
  | nil => intro seen x hx; simp [dedupGo] at hx
  | cons j rest ih =>
    intro seen x hx
    unfold dedupGo at hx
    split at hx
    · exact List.mem_cons_of_mem j (ih seen x hx)
    · rcases List.mem_cons.mp hx with h | h
      · exact h ▸ List.mem_cons_self j rest
      · exact List.mem_cons_of_mem j (ih _ x h)

/-- No element surviving deduplication has a key that was already seen. -/
lemma dedupGo_key_not_seen :
    ∀ (l : List JobForFiltering) (seen : List (List Char)) (x : JobForFiltering),
      x ∈ dedupGo seen l → dedupKey x ∉ seen := by
  intro l
  induction l with
  | nil => intro seen x hx; simp [dedupGo] at hx
  | cons j rest ih =>
    intro seen x hx
    unfold dedupGo at hx
    split at hx
    · exact ih seen x hx
    · rcases List.mem_cons.mp hx with h | h
      · subst h; assumption
      · have := ih _ x h
        intro hcontra
        exact this (List.mem_cons_of_mem _ hcontra)

/-- The deduplicated list has pairwise-distinct keys. -/
lemma dedupGo_keys_nodup :
    ∀ (l : List JobForFiltering) (seen : List (List Char)),
      ((dedupGo seen l).map dedupKey).Nodup := by
  intro l
  induction l with
  | nil => intro seen; simp [dedupGo]
  | cons j rest ih =>
    intro seen
    unfold dedupGo
    split
    · exact ih seen
    · rw [List.map_cons]
      refine List.nodup_cons.mpr ⟨?_, ih _⟩
      intro hmem
      obtain ⟨x, hx, hxkey⟩ := List.mem_map.mp hmem
      exact dedupGo_key_not_seen rest _ x hx (hxkey ▸ List.mem_cons_self _ _)

/-- A first occurrence of a key, with that key not yet seen, survives
deduplication. -/
lemma mem_dedupGo_of_first :
    ∀ (l₁ : List JobForFiltering) (seen : List (List Char)) (l₂ : List JobForFiltering)
      (j : JobForFiltering), dedupKey j ∉ seen →
      (∀ k ∈ l₁, dedupKey k ≠ dedupKey j) →
      j ∈ dedupGo seen (l₁ ++ j :: l₂) := by
  intro l₁
  induction l₁ with
  | nil =>
    intro seen l₂ j hseen _
    simp only [List.nil_append]
    unfold dedupGo
    rw [if_neg hseen]
    exact List.mem_cons_self j _
  | cons k l₁ ih =>
    intro seen l₂ j hseen hfirst
    simp only [List.cons_append]
    unfold dedupGo
    split
    · exact ih seen l₂ j hseen fun x hx => hfirst x (List.mem_cons_of_mem k hx)
    · refine List.mem_cons_of_mem k (ih _ l₂ j ?_ fun x hx => hfirst x (List.mem_cons_of_mem k hx))
      intro hmem
      rcases List.mem_cons.mp hmem with h | h
      · exact hfirst k (List.mem_cons_self k l₁) h.symm
      · exact hseen h

/-- Every id returned by the relevance filter is the id of a job in the
batch sent to the AI, provided the AI oracle only answers with ids it
was given. -/
lemma filterRelevant_subset (jobs : List JobForFiltering) (prefs : ProfilePreferences)
    (ai : List JobForFiltering → Option (List (List Char)))
    (hai : ∀ l res, ai l = some res → ∀ x ∈ res, x ∈ l.map (·.linkedinId)) :
    ∀ x ∈ filterRelevantJobs jobs prefs ai, x ∈ (aiInput jobs prefs).map (·.linkedinId) := by
  intro x hx
  unfold filterRelevantJobs at hx
  split at hx
  · simp at hx
  · split at hx
    · simp at hx
    · rcases hcase : ai (aiInput jobs prefs) with _ | ids
      · rw [hcase] at hx
        exact hx
      · rw [hcase] at hx
        exact hai _ _ hcase x hx

/-- C5 counterexample: with an empty exclusion list, two postings that
share a title and company but have distinct ids, and a failing AI call,
the fallback set misses the id of the second posting even though it was
passed into filterRelevantJobs. -/
theorem filterRelevant_fallback_counterexample :
    (⟨chars "2", chars "T", chars "C"⟩ : JobForFiltering) ∈
      [(⟨chars "1", chars "T", chars "C"⟩ : JobForFiltering),
       ⟨chars "2", chars "T", chars "C"⟩] ∧
    chars "2" ∉ filterRelevantJobs
      [⟨chars "1", chars "T", chars "C"⟩, ⟨chars "2", chars "T", chars "C"⟩]
      ⟨[], [], []⟩ (fun _ => none) := by decide

/-- C5 amended: on any failure of the AI relevance call the filter falls
back to exactly the ids of the postings that were passed into the AI
call, i.e. those surviving the keyword pre-filter and the dedup; in
particular every first occurrence of a key among the pre-filter
survivors keeps its id.  Postings collapsed by dedup or rejected by the
keyword pre-filter are not in the fallback set. -/
theorem filterRelevant_fallback_keeps_ai_batch
    (jobs : List JobForFiltering) (prefs : ProfilePreferences)
    (ai : List JobForFiltering → Option (List (List Char)))
    (hfail : ai (aiInput jobs prefs) = none) :
    filterRelevantJobs jobs prefs ai = (aiInput jobs prefs).map (·.linkedinId) ∧
    ∀ l₁ l₂ j,
      (preFilterByKeywords jobs prefs.excludeTitleKeywords).1 = l₁ ++ j :: l₂ →
      (∀ k ∈ l₁, dedupKey k ≠ dedupKey j) →
      j.linkedinId ∈ filterRelevantJobs jobs prefs ai := by
  have hmain : filterRelevantJobs jobs prefs ai = (aiInput jobs prefs).map (·.linkedinId) := by
    unfold filterRelevantJobs
    split
    · rename_i hj
      have hjobs : jobs = [] := by simpa using hj
      subst hjobs
      have hp : (preFilterByKeywords [] prefs.excludeTitleKeywords).1 = [] := by
        rw [preFilter_passed_eq]; rfl
      simp [aiInput, hp, deduplicateJobs, dedupGo]
    · split
      · rename_i hd
        have : aiInput jobs prefs = [] := by simpa using hd
        rw [this]
        rfl
      · rw [hfail]
  refine ⟨hmain, ?_⟩
  intro l₁ l₂ j hsplit hfirst
  have hjmem : j ∈ aiInput jobs prefs := by
    unfold aiInput deduplicateJobs
    rw [hsplit]
    exact mem_dedupGo_of_first l₁ [] l₂ j (by simp) hfirst
  rw [hmain]
  exact List.mem_map.mpr ⟨j, hjmem, rfl⟩

/-- Witness for C5 at a concrete batch: two same-key postings, a failing
AI call; the first occurrence's id is kept by the fallback. -/
theorem filterRelevant_fallback_keeps_ai_batch_witness :
    chars "1" ∈ filterRelevantJobs
      [⟨chars "1", chars "T", chars "C"⟩, ⟨chars "2", chars "T", chars "C"⟩]
      ⟨[], [], []⟩ (fun _ => none) := by
  refine (filterRelevant_fallback_keeps_ai_batch
      [⟨chars "1", chars "T", chars "C"⟩, ⟨chars "2", chars "T", chars "C"⟩]
      ⟨[], [], []⟩ (fun _ => none) rfl).2
    [] [⟨chars "2", chars "T", chars "C"⟩] ⟨chars "1", chars "T", chars "C"⟩ ?_ (by simp)
  decide

/-- C10: the relevance filter collapses postings with identical
case-insensitive title and company to the first occurrence before the AI
call, so, when the input ids are distinct and the AI answers only with
ids it was given, the returned id set contains at most one id per such
pair on every path, the failure fallback included. -/
theorem dedup_at_most_one_per_pair
    (jobs : List JobForFiltering) (prefs : ProfilePreferences)
    (ai : List JobForFiltering → Option (List (List Char)))
    (hids : (jobs.map (·.linkedinId)).Nodup)
    (hai : ∀ l res, ai l = some res → ∀ x ∈ res, x ∈ l.map (·.linkedinId)) :
    ∀ a ∈ jobs, ∀ b ∈ jobs,
      trimChars (lowerChars a.title) = trimChars (lowerChars b.title) →
      trimChars (lowerChars a.company) = trimChars (lowerChars b.company) →
      a.linkedinId ∈ filterRelevantJobs jobs prefs ai →
      b.linkedinId ∈ filterRelevantJobs jobs prefs ai →
      a.linkedinId = b.linkedinId := by
  intro a ha b hb ht hc hma hmb
  have hkey : dedupKey a = dedupKey b := by
    unfold dedupKey
    rw [ht, hc]
  have hsubJobs : ∀ x ∈ aiInput jobs prefs, x ∈ jobs := by
    intro x hx
    have h1 : x ∈ (preFilterByKeywords jobs prefs.excludeTitleKeywords).1 :=
      dedupGo_subset _ _ x hx
    rw [preFilter_passed_eq] at h1
    exact (List.mem_filter.mp h1).1
  obtain ⟨u, hu, hu2⟩ := List.mem_map.mp (filterRelevant_subset jobs prefs ai hai _ hma)
  obtain ⟨v, hv, hv2⟩ := List.mem_map.mp (filterRelevant_subset jobs prefs ai hai _ hmb)
  have hu3 : u = a := List.inj_on_of_nodup_map hids (hsubJobs u hu) ha hu2
  have hv3 : v = b := List.inj_on_of_nodup_map hids (hsubJobs v hv) hb hv2
  subst hu3 hv3
  have hab : u = v :=
    List.inj_on_of_nodup_map (dedupGo_keys_nodup _ []) hu hv hkey
  rw [hab]

/-- Witness for C10 at a concrete batch: the second posting shares the
key of the first but has a distinct id, so its id is never returned. -/
theorem dedup_at_most_one_per_pair_witness :
    chars "2" ∉ filterRelevantJobs
      [⟨chars "1", chars "T", chars "C"⟩, ⟨chars "2", chars "T", chars "C"⟩]
      ⟨[], [], []⟩ (fun l => some (l.map (·.linkedinId))) := by
  intro hmb
  have h := dedup_at_most_one_per_pair
    [⟨chars "1", chars "T", chars "C"⟩, ⟨chars "2", chars "T", chars "C"⟩]
    ⟨[], [], []⟩ (fun l => some (l.map (·.linkedinId))) (by decide)
    (fun l res hres x hx => by
      have : res = l.map (·.linkedinId) := (Option.some.inj hres).symm
      exact this ▸ hx)
    ⟨chars "1", chars "T", chars "C"⟩ (by decide)
    ⟨chars "2", chars "T", chars "C"⟩ (by decide)
    rfl rfl (by decide) hmb
  exact absurd h (by decide)

/-- C2 counterexample: under rapid ticks both invocations read
isRunning=false before either markScraperRunning write lands, so a state
with two cycle bodies executing concurrently is reachable — the check and
the mark are separate awaited operations, and mutual exclusion fails. -/
theorem overlap_interleaving_counterexample :
    SysReach overlapState ∧ overlapState.a.pc = 2 ∧ overlapState.b.pc = 2 ∧
    ¬ ∀ s, SysReach s → ¬(s.a.pc = 2 ∧ s.b.pc = 2) := by
  have h1 : Step sysInit ⟨false, ⟨1, false, false, false⟩, ⟨0, false, false, false⟩⟩ :=
    Step.readA false ⟨0, false, false, false⟩ ⟨0, false, false, false⟩ rfl
  have h2 : Step ⟨false, ⟨1, false, false, false⟩, ⟨0, false, false, false⟩⟩
      ⟨false, ⟨1, false, false, false⟩, ⟨1, false, false, false⟩⟩ :=
    Step.readB false ⟨1, false, false, false⟩ ⟨0, false, false, false⟩ rfl
  have h3 : Step ⟨false, ⟨1, false, false, false⟩, ⟨1, false, false, false⟩⟩
      ⟨true, ⟨2, false, false, false⟩, ⟨1, false, false, false⟩⟩ :=
    Step.markA false ⟨1, false, false, false⟩ ⟨1, false, false, false⟩ rfl rfl
  have h4 : Step ⟨true, ⟨2, false, false, false⟩, ⟨1, false, false, false⟩⟩ overlapState :=
    Step.markB true ⟨2, false, false, false⟩ ⟨1, false, false, false⟩ rfl rfl
  have hreach : SysReach overlapState :=
    Relation.ReflTransGen.head h1 (Relation.ReflTransGen.head h2
      (Relation.ReflTransGen.head h3 (Relation.ReflTransGen.single h4)))
  exact ⟨hreach, rfl, rfl, fun hall => hall overlapState hreach ⟨rfl, rfl⟩⟩

/-- Strengthened reachability invariant of the tick model: a skipped
invocation is finished and did no work, and a worked flag implies the
invocation finished. -/
lemma sys_invariant : ∀ s, SysReach s →
    ((s.a.skipped = true → s.a.pc = 3 ∧ s.a.worked = false) ∧
     (s.a.worked = true → s.a.pc = 3)) ∧
    ((s.b.skipped = true → s.b.pc = 3 ∧ s.b.worked = false) ∧
     (s.b.worked = true → s.b.pc = 3)) := by
  intro s hs
  induction hs with
  | refl => simp [sysInit]
  | tail _ hstep ih => cases hstep <;> simp_all

/-- C2 amended: an invocation that observes isRunning=true finishes
without doing any body work, and isRunning only becomes true through an
invocation that observed it false; but, the check and the write being
separate awaited operations, this does not give mutual exclusion of the
cycle bodies under interleaved ticks. -/
theorem guard_observed_properties :
    (∀ s, SysReach s →
      (s.a.skipped = true → s.a.pc = 3 ∧ s.a.worked = false) ∧
      (s.b.skipped = true → s.b.pc = 3 ∧ s.b.worked = false)) ∧
    (∀ s t, Step s t → t.running = true →
      s.running = true ∨ (s.a.pc = 1 ∧ s.a.reg = false) ∨
        (s.b.pc = 1 ∧ s.b.reg = false)) := by
  constructor
  · intro s hs
    exact ⟨(sys_invariant s hs).1.1, (sys_invariant s hs).2.1⟩
  · intro s t hstep hrun
    cases hstep <;> rename_i r a b h <;> simp_all

/-- Witness for C2's amended properties at a concrete reachable state: the
second tick observes isRunning=true, skips, and did no work; and the mark
write that set isRunning was taken from an observed-false guard state. -/
theorem guard_observed_properties_witness :
    (⟨true, ⟨2, false, false, false⟩, ⟨3, true, true, false⟩⟩ : Sys).b.worked = false ∧
    ((⟨false, ⟨1, false, false, false⟩, ⟨0, false, false, false⟩⟩ : Sys).running = true ∨
      ((⟨false, ⟨1, false, false, false⟩, ⟨0, false, false, false⟩⟩ : Sys).a.pc = 1 ∧
       (⟨false, ⟨1, false, false, false⟩, ⟨0, false, false, false⟩⟩ : Sys).a.reg = false) ∨
      ((⟨false, ⟨1, false, false, false⟩, ⟨0, false, false, false⟩⟩ : Sys).b.pc = 1 ∧
       (⟨false, ⟨1, false, false, false⟩, ⟨0, false, false, false⟩⟩ : Sys).b.reg = false)) := by
  have h1 : Step sysInit ⟨false, ⟨1, false, false, false⟩, ⟨0, false, false, false⟩⟩ :=
    Step.readA false ⟨0, false, false, false⟩ ⟨0, false, false, false⟩ rfl
  have h2 : Step ⟨false, ⟨1, false, false, false⟩, ⟨0, false, false, false⟩⟩
      ⟨true, ⟨2, false, false, false⟩, ⟨0, false, false, false⟩⟩ :=
    Step.markA false ⟨1, false, false, false⟩ ⟨0, false, false, false⟩ rfl rfl
  have h3 : Step ⟨true, ⟨2, false, false, false⟩, ⟨0, false, false, false⟩⟩
      ⟨true, ⟨2, false, false, false⟩, ⟨1, true, false, false⟩⟩ :=
    Step.readB true ⟨2, false, false, false⟩ ⟨0, false, false, false⟩ rfl
  have h4 : Step ⟨true, ⟨2, false, false, false⟩, ⟨1, true, false, false⟩⟩
      ⟨true, ⟨2, false, false, false⟩, ⟨3, true, true, false⟩⟩ :=
    Step.skipB true ⟨2, false, false, false⟩ ⟨1, true, false, false⟩ rfl rfl
  have hreach : SysReach ⟨true, ⟨2, false, false, false⟩, ⟨3, true, true, false⟩⟩ :=
    Relation.ReflTransGen.head h1 (Relation.ReflTransGen.head h2
      (Relation.ReflTransGen.head h3 (Relation.ReflTransGen.single h4)))
  constructor
  · exact ((guard_observed_properties.1 _ hreach).2 rfl).2
  · exact guard_observed_properties.2 _ _ h2 rfl

lemma saveStep_scraper (env : CycleEnv) (db : Db) (job : ScrapedJob) :
    (saveStep env db job).scraper = db.scraper := by
  unfold saveStep
  split
  · rfl
  · split <;> rfl

lemma foldl_saveStep_scraper (env : CycleEnv) :
    ∀ (l : List ScrapedJob) (db : Db),
      (l.foldl (saveStep env) db).scraper = db.scraper := by
  intro l
  induction l with
  | nil => intro db; rfl
  | cons j rest ih =>
    intro db
    rw [List.foldl_cons, ih, saveStep_scraper]

lemma processKeyword_scraper (env : CycleEnv) (acc : Db × List (List Char))
    (kw : List Char) : (processKeyword env acc kw).1.scraper = acc.1.scraper := by
  simp only [processKeyword]
  split
  · rfl
  · split
    · rfl
    · split
      · rfl
      · exact foldl_saveStep_scraper env _ acc.1

lemma processKeyword_log (env : CycleEnv) (acc : Db × List (List Char))
    (kw : List Char) : (processKeyword env acc kw).2 = acc.2 ++ [kw] := by
  simp only [processKeyword]
  split
  · rfl
  · split
    · rfl
    · split <;> rfl

lemma foldl_processKeyword_scraper (env : CycleEnv) :
    ∀ (kws : List (List Char)) (acc : Db × List (List Char)),
      (kws.foldl (processKeyword env) acc).1.scraper = acc.1.scraper := by
  intro kws
  induction kws with
  | nil => intro acc; rfl
  | cons k rest ih =>
    intro acc
    rw [List.foldl_cons, ih, processKeyword_scraper]

lemma foldl_processKeyword_log (env : CycleEnv) :
    ∀ (kws : List (List Char)) (acc : Db × List (List Char)),
      (kws.foldl (processKeyword env) acc).2 = acc.2 ++ kws := by
  intro kws
  induction kws with
  | nil => intro acc; simp
  | cons k rest ih =>
    intro acc
    rw [List.foldl_cons, ih, processKeyword_log]
    simp

/-- The cycle body once both guards pass: success or failure bookkeeping
around the keyword fold. -/
lemma runScrapeCycle_body (env : CycleEnv) (db : Db)
    (hrun : db.scraper.isRunning = false)
    (hguard : ¬(db.scraper.errorCount ≥ env.maxConsecutiveErrors ∧
      env.now < db.scraper.lastRunAt + env.errorPauseMinutes * 60000)) :
    runScrapeCycle env db =
      if env.launchOk then
        (markScraperSuccess env.endTime
          (env.keywords.foldl (processKeyword env) (markScraperRunning env.now db, [])).1,
         (env.keywords.foldl (processKeyword env) (markScraperRunning env.now db, [])).2)
      else (markScraperError (markScraperRunning env.now db), []) := by
  have hr' : ¬db.scraper.isRunning = true := by simp [hrun]
  unfold runScrapeCycle
  rw [if_neg hr', if_neg hguard]

/-- C3: while errorCount has reached the threshold and the pause window
has not elapsed, a cycle invocation is a no-op: the whole database,
ScraperState included, is unchanged and no keyword is scanned.  Once the
window has elapsed the next tick runs fully regardless of errorCount,
scanning every keyword; a successful cycle resets errorCount to 0 and a
failed one increments it by one. -/
theorem errorPause_noop_and_resume (env : CycleEnv) (db : Db) :
    (env.maxConsecutiveErrors ≤ db.scraper.errorCount →
     env.now < db.scraper.lastRunAt + env.errorPauseMinutes * 60000 →
     runScrapeCycle env db = (db, [])) ∧
    (db.scraper.isRunning = false →
     db.scraper.lastRunAt + env.errorPauseMinutes * 60000 ≤ env.now →
     (runScrapeCycle env db).1.scraper.lastRunAt = env.now ∧
     (env.launchOk = true →
       (runScrapeCycle env db).2 = env.keywords ∧
       (runScrapeCycle env db).1.scraper.errorCount = 0 ∧
       (runScrapeCycle env db).1.scraper.lastSuccessAt = some env.endTime ∧
       (runScrapeCycle env db).1.scraper.isRunning = false) ∧
     (env.launchOk = false →
       (runScrapeCycle env db).1.scraper.errorCount = db.scraper.errorCount + 1 ∧
       (runScrapeCycle env db).1.scraper.isRunning = false)) := by
  constructor
  · intro h1 h2
    unfold runScrapeCycle
    by_cases hrun : db.scraper.isRunning
    · rw [if_pos hrun]
    · rw [if_neg hrun, if_pos ⟨h1, h2⟩]
  · intro hrun helapsed
    have hguard : ¬(db.scraper.errorCount ≥ env.maxConsecutiveErrors ∧
        env.now < db.scraper.lastRunAt + env.errorPauseMinutes * 60000) :=
      fun hand => absurd hand.2 (not_lt.mpr helapsed)
    rw [runScrapeCycle_body env db hrun hguard]
    by_cases hl : env.launchOk
    · rw [if_pos hl]
      have hs := foldl_processKeyword_scraper env env.keywords (markScraperRunning env.now db, [])
      have hlog := foldl_processKeyword_log env env.keywords (markScraperRunning env.now db, [])
      refine ⟨?_, fun _ => ⟨by simpa using hlog, rfl, rfl, rfl⟩,
        fun hcontra => absurd hl (by simp [hcontra])⟩
      show (List.foldl (processKeyword env) (markScraperRunning env.now db, [])
          env.keywords).1.scraper.lastRunAt = env.now
      rw [hs]
      rfl
    · rw [if_neg hl]
      refine ⟨rfl, fun hcontra => absurd hcontra hl, fun _ => ⟨rfl, rfl⟩⟩

/-- Witness for C3 at concrete inputs: a paused state is untouched, and
after the window elapses one successful and one failed cycle update the
error counter as stated. -/
theorem errorPause_noop_and_resume_witness :
    (runScrapeCycle
      ⟨5, 30, 10, [chars "backend engineer"], 100, 200, true,
        fun _ => [], fun _ => [], fun _ => [], fun _ => false⟩
      ⟨⟨90, none, 5, false, none⟩, []⟩ = (⟨⟨90, none, 5, false, none⟩, []⟩, [])) ∧
    (runScrapeCycle
      ⟨5, 30, 10, [chars "backend engineer"], 1800090, 1800200, true,
        fun _ => [], fun _ => [], fun _ => [], fun _ => false⟩
      ⟨⟨90, none, 5, false, none⟩, []⟩).1.scraper.errorCount = 0 ∧
    (runScrapeCycle
      ⟨5, 30, 10, [chars "backend engineer"], 1800090, 1800200, false,
        fun _ => [], fun _ => [], fun _ => [], fun _ => false⟩
      ⟨⟨90, none, 5, false, none⟩, []⟩).1.scraper.errorCount = 6 := by
  refine ⟨(errorPause_noop_and_resume _ _).1 (by decide) (by decide), ?_, ?_⟩
  · exact (((errorPause_noop_and_resume _ _).2 rfl (by decide)).2.1 rfl).2.1
  · exact (((errorPause_noop_and_resume _ _).2 rfl (by decide)).2.2 rfl).1

lemma storedIds_saveStep_mono (env : CycleEnv) (db : Db) (job : ScrapedJob) :
    ∀ x ∈ storedIds db, x ∈ storedIds (saveStep env db job) := by
  intro x hx
  unfold saveStep
  split
  · exact hx
  · split
    · exact hx
    · simp only [storedIds, List.map_append]
      exact List.mem_append_left _ hx

lemma storedIds_foldl_mono (env : CycleEnv) :
    ∀ (l : List ScrapedJob) (db : Db) (x : List Char),
      x ∈ storedIds db → x ∈ storedIds (l.foldl (saveStep env) db) := by
  intro l
  induction l with
  | nil => intro db x hx; exact hx
  | cons j rest ih =>
    intro db x hx
    rw [List.foldl_cons]
    exact ih _ x (storedIds_saveStep_mono env db j x hx)

lemma saveStep_mem_self (env : CycleEnv) (db : Db) (k : ScrapedJob)
    (herr : env.saveErr k.linkedinId = false) :
    k.linkedinId ∈ storedIds (saveStep env db k) := by
  unfold saveStep
  rw [if_neg (by simp [herr])]
  split
  · assumption
  · simp [storedIds]

/-- C9: a duplicate-key persistence failure leaves the stored table
unchanged — the posting stays saved exactly as before; any one posting's
save failure never blocks the remaining postings, whose ids all end up
stored; and no save failure aborts the cycle, which still ends in the
success bookkeeping with errorCount reset, for any keyword list. -/
theorem save_failures_isolated (env : CycleEnv) (db : Db) :
    (∀ job : ScrapedJob, job.linkedinId ∈ storedIds db → saveStep env db job = db) ∧
    (∀ (jobs : List ScrapedJob) (k : ScrapedJob), k ∈ jobs →
      env.saveErr k.linkedinId = false →
      k.linkedinId ∈ storedIds (jobs.foldl (saveStep env) db)) ∧
    (db.scraper.isRunning = false →
     db.scraper.errorCount < env.maxConsecutiveErrors →
     env.launchOk = true →
     (runScrapeCycle env db).1.scraper.errorCount = 0 ∧
     (runScrapeCycle env db).1.scraper.isRunning = false) := by
  refine ⟨?_, ?_, ?_⟩
  · intro job hmem
    by_cases herr : env.saveErr job.linkedinId
    · simp [saveStep, herr]
    · simp [saveStep, herr, hmem]
  · intro jobs
    induction jobs generalizing db with
    | nil => intro k hk; simp at hk
    | cons j rest ih =>
      intro k hk herr
      rw [List.foldl_cons]
      rcases List.mem_cons.mp hk with h | h
      · subst h
        exact storedIds_foldl_mono env rest _ _ (saveStep_mem_self env db k herr)
      · exact ih _ k h herr
  · intro hrun hlt hl
    have hguard : ¬(db.scraper.errorCount ≥ env.maxConsecutiveErrors ∧
        env.now < db.scraper.lastRunAt + env.errorPauseMinutes * 60000) :=
      fun hand => absurd hand.1 (not_le.mpr hlt)
    rw [runScrapeCycle_body env db hrun hguard, if_pos hl]
    exact ⟨rfl, rfl⟩

/-- Witness for C9 at concrete inputs: a duplicate save is a no-op, a
later posting is still stored after an earlier duplicate failure, and a
cycle with a failing save still succeeds. -/
theorem save_failures_isolated_witness :
    (saveStep
        ⟨5, 30, 10, [], 0, 1, true, fun _ => [], fun _ => [], fun _ => [], fun _ => false⟩
        ⟨⟨0, none, 0, false, none⟩, [⟨chars "1", chars "t", chars "c", chars "l", chars "a", chars "d"⟩]⟩
        ⟨chars "1", chars "t", chars "c", chars "l", chars "d", 3⟩
      = ⟨⟨0, none, 0, false, none⟩, [⟨chars "1", chars "t", chars "c", chars "l", chars "a", chars "d"⟩]⟩) ∧
    chars "2" ∈ storedIds
      ([⟨chars "1", chars "t", chars "c", chars "l", chars "d", 3⟩,
        ⟨chars "2", chars "t2", chars "c2", chars "l2", chars "d2", 4⟩].foldl
        (saveStep ⟨5, 30, 10, [], 0, 1, true, fun _ => [], fun _ => [], fun _ => [], fun _ => false⟩)
        ⟨⟨0, none, 0, false, none⟩, [⟨chars "1", chars "t", chars "c", chars "l", chars "a", chars "d"⟩]⟩) ∧
    (runScrapeCycle
        ⟨5, 30, 10, [chars "kw"], 0, 1, true,
          fun _ => [⟨chars "1", chars "t", chars "c", chars "l", chars "d", 3⟩],
          fun l => l.map (·.linkedinId), fun _ => [], fun _ => true⟩
        ⟨⟨0, none, 0, false, none⟩, []⟩).1.scraper.errorCount = 0 := by
  refine ⟨(save_failures_isolated _ _).1 _ (by decide), ?_, ?_⟩
  · exact (save_failures_isolated _ _).2.1 _
      ⟨chars "2", chars "t2", chars "c2", chars "l2", chars "d2", 4⟩ (by decide) rfl
  · exact ((save_failures_isolated _ _).2.2 rfl (by decide) rfl).1

/-- The batched dedup filter against storage keeps exactly the postings
whose id is not stored. -/
lemma newCards_filter_eq (rel : List ScrapedJob) (stored : List (List Char)) :
    (rel.filter fun j =>
        j.linkedinId ∉ (rel.map (·.linkedinId)).filter fun i => i ∈ stored)
      = rel.filter fun j => j.linkedinId ∉ stored := by
  apply List.filter_congr
  intro j hj
  by_cases hmem : j.linkedinId ∈ stored
  · have hex : j.linkedinId ∈ (rel.map (·.linkedinId)).filter fun i => i ∈ stored :=
      List.mem_filter.mpr ⟨List.mem_map_of_mem _ hj, by simpa using hmem⟩
    simp [hex, hmem]
  · have hex : j.linkedinId ∉ (rel.map (·.linkedinId)).filter fun i => i ∈ stored := by
      intro h
      exact hmem (by simpa using (List.mem_filter.mp h).2)
    simp [hex, hmem]

/-- Counting the complement of the already-stored filter. -/
lemma filter_not_stored_length (rel : List ScrapedJob) (stored : List (List Char))
    (hlen : rel.length = 4)
    (h : (rel.filter fun j => j.linkedinId ∈ stored).length = 1) :
    (rel.filter fun j => j.linkedinId ∉ stored).length = 3 := by
  have htot := List.length_eq_length_filter_add
    (l := rel) (fun j => decide (j.linkedinId ∈ stored))
  simp only [decide_not]
  omega

/-- Saving a batch of fresh postings with distinct ids and no database
errors appends exactly one record per posting. -/
lemma foldl_saveStep_length (env : CycleEnv) :
    ∀ (l : List ScrapedJob) (db : Db),
      (l.map (·.linkedinId)).Nodup →
      (∀ j ∈ l, env.saveErr j.linkedinId = false) →
      (∀ j ∈ l, j.linkedinId ∉ storedIds db) →
      (l.foldl (saveStep env) db).jobs.length = db.jobs.length + l.length := by
  intro l
  induction l with
  | nil => intro db _ _ _; rfl
  | cons j rest ih =>
    intro db hnodup herr hfresh
    have hj : saveStep env db j = { db with jobs := db.jobs ++
        [⟨j.linkedinId, j.title, j.company, j.link,
          if env.applyLinkOf j = [] then j.link else env.applyLinkOf j, j.postedDate⟩] } := by
      simp [saveStep, herr j (List.mem_cons_self j rest),
        hfresh j (List.mem_cons_self j rest)]
    have hstored : storedIds { db with jobs := db.jobs ++
        [⟨j.linkedinId, j.title, j.company, j.link,
          if env.applyLinkOf j = [] then j.link else env.applyLinkOf j, j.postedDate⟩] }
        = storedIds db ++ [j.linkedinId] := by
      simp [storedIds]
    rw [List.foldl_cons, hj]
    have hrest := ih ({ db with jobs := db.jobs ++
        [⟨j.linkedinId, j.title, j.company, j.link,
          if env.applyLinkOf j = [] then j.link else env.applyLinkOf j, j.postedDate⟩] })
      (by
        rw [List.map_cons] at hnodup
        exact (List.nodup_cons.mp hnodup).2)
      (fun x hx => herr x (List.mem_cons_of_mem j hx))
      (by
        intro x hx
        rw [hstored]
        intro hmem
        rcases List.mem_append.mp hmem with h | h
        · exact hfresh x (List.mem_cons_of_mem j hx) h
        · rw [List.map_cons] at hnodup
          have hne := (List.nodup_cons.mp hnodup).1
          have : x.linkedinId = j.linkedinId := by simpa using h
          exact hne (this ▸ List.mem_map_of_mem _ hx))
    rw [hrest]
    simp [List.length_append]
    omega

/-- C1: a fully successful cycle over one keyword in which the scanner
returns 50 cards, 10 pass the age filter, the relevance filter keeps 4
of them, the batched dedup finds 1 already stored and every save
succeeds, persists exactly 3 new records and ends with lastSuccessAt set
to the completion time and errorCount reset to 0. -/
theorem cycle_scenario_backend_engineer
    (env : CycleEnv) (db : Db) (kw : List Char)
    (recentCards relevantCards : List ScrapedJob)
    (hkw : env.keywords = [kw])
    (hlaunch : env.launchOk = true)
    (hrun : db.scraper.isRunning = false)
    (herr : db.scraper.errorCount < env.maxConsecutiveErrors)
    (hscan : (env.scan kw).length = 50)
    (hrecent : recentCards = (env.scan kw).filter fun j => j.minutesAgo ≤ env.maxMinutesAgo)
    (hrecentLen : recentCards.length = 10)
    (hrel : relevantCards = recentCards.filter fun j => j.linkedinId ∈ env.relFilter recentCards)
    (hrelLen : relevantCards.length = 4)
    (hdup : (relevantCards.filter fun j => j.linkedinId ∈ storedIds db).length = 1)
    (hnodup : (relevantCards.map (·.linkedinId)).Nodup)
    (hsave : ∀ j ∈ relevantCards, env.saveErr j.linkedinId = false) :
    (runScrapeCycle env db).1.jobs.length = db.jobs.length + 3 ∧
    (runScrapeCycle env db).1.scraper.lastSuccessAt = some env.endTime ∧
    (runScrapeCycle env db).1.scraper.errorCount = 0 ∧
    (runScrapeCycle env db).1.scraper.isRunning = false := by
  have hguard : ¬(db.scraper.errorCount ≥ env.maxConsecutiveErrors ∧
      env.now < db.scraper.lastRunAt + env.errorPauseMinutes * 60000) :=
    fun hand => absurd hand.1 (not_le.mpr herr)
  have hne1 : (env.scan kw).isEmpty = false := by
    rw [List.isEmpty_eq_false]
    intro h
    rw [h] at hscan
    simp at hscan
  have hne2 : recentCards.isEmpty = false := by
    rw [List.isEmpty_eq_false]
    intro h
    rw [h] at hrecentLen
    simp at hrecentLen
  have hne3 : relevantCards.isEmpty = false := by
    rw [List.isEmpty_eq_false]
    intro h
    rw [h] at hrelLen
    simp at hrelLen
  have hsid : storedIds (markScraperRunning env.now db) = storedIds db := rfl
  have hpk : processKeyword env (markScraperRunning env.now db, []) kw
      = ((relevantCards.filter fun j => j.linkedinId ∉ storedIds db).foldl
          (saveStep env) (markScraperRunning env.now db), [kw]) := by
    simp only [processKeyword]
    rw [← hrecent, ← hrel, hne1, hne2, hne3]
    rw [hsid, newCards_filter_eq]
    simp
  rw [runScrapeCycle_body env db hrun hguard, if_pos hlaunch, hkw,
    List.foldl_cons, List.foldl_nil, hpk]
  refine ⟨?_, rfl, rfl, rfl⟩
  have hnewlen : (relevantCards.filter fun j => j.linkedinId ∉ storedIds db).length = 3 :=
    filter_not_stored_length relevantCards (storedIds db) hrelLen hdup
  have hfold := foldl_saveStep_length env
    (relevantCards.filter fun j => j.linkedinId ∉ storedIds db)
    (markScraperRunning env.now db)
    (List.Nodup.sublist (List.Sublist.map _ (List.filter_sublist _)) hnodup)
    (fun j hj => hsave j (List.mem_filter.mp hj).1)
    (fun j hj => by
      have := (List.mem_filter.mp hj).2
      simpa using this)
  show ((relevantCards.filter fun j => j.linkedinId ∉ storedIds db).foldl
      (saveStep env) (markScraperRunning env.now db)).jobs.length = db.jobs.length + 3
  rw [hfold, hnewlen]
  rfl

/-- Witness for C1 at the concrete scenario: exactly 3 new records are
appended to the single stored one and the state shows the success
bookkeeping. -/
theorem cycle_scenario_backend_engineer_witness :
    (runScrapeCycle scenarioEnv scenarioDb).1.jobs.length = 4 ∧
    (runScrapeCycle scenarioEnv scenarioDb).1.scraper.lastSuccessAt = some 200 ∧
    (runScrapeCycle scenarioEnv scenarioDb).1.scraper.errorCount = 0 := by
  have h := cycle_scenario_backend_engineer scenarioEnv scenarioDb
    (chars "backend engineer") _ _ rfl rfl rfl (by decide) (by decide) rfl
    (by decide) rfl (by decide) (by decide) (by decide) (fun j _ => rfl)
  exact ⟨h.1, h.2.1, h.2.2.1⟩

/-- C4 evaluation: starting the agent while the recorded owner pid 7 is
alive exits with code 1 and mutates nothing; but starting it with a null
recorded owner, or with dead owner pid 7, succeeds and still ends the
startup with a null owner pid instead of the new process's pid 42 — the
scheduler's startup reset runs after setScraperPid and wipes the fresh
registration. -/
theorem agent_startup_pid_evaluation :
    (agentMain ⟨fun _ => true, 42, true⟩ ⟨⟨3, none, 2, false, some 7⟩, []⟩
      = (⟨⟨3, none, 2, false, some 7⟩, []⟩, .exited 1)) ∧
    ((agentMain ⟨fun _ => false, 42, true⟩ ⟨⟨3, none, 2, false, none⟩, []⟩).2
      = .running) ∧
    ((agentMain ⟨fun _ => false, 42, true⟩ ⟨⟨3, none, 2, false, none⟩, []⟩).1.scraper.pid
      = none) ∧
    ((agentMain ⟨fun _ => false, 42, true⟩ ⟨⟨3, none, 2, false, some 7⟩, []⟩).2
      = .running) ∧
    ((agentMain ⟨fun _ => false, 42, true⟩ ⟨⟨3, none, 2, false, some 7⟩, []⟩).1.scraper.pid
      = none) := by decide

end JobTracker
